import Mathlib

/-!
Shallow embedding of the shape/slice core of the luminal repository
(src/src/shape/slice.rs) and of the two Function-node payloads of
src/examples/llama/model.rs, together with theorems settling the
specification claims about them.
-/

namespace Luminal

/-- Symbolic integer arithmetic term over run-time symbols and literals
(the Expression type of the crate; its implementation file is not among
the provided sources, so the constructors follow the spec, section 4.1:
literals, named run-time symbols, and arithmetic that folds literal
sub-terms eagerly).  Only addition is exercised by the sliced code. -/
inductive Expression where
  | lit : Nat → Expression
  | sym : Char → Expression
  | add : Expression → Expression → Expression
deriving DecidableEq

/-- Eagerly-folding addition on Expressions (spec, section 4.1:
simplification folds literal sub-terms eagerly). -/
def Expression.addE : Expression → Expression → Expression
  | .lit a, .lit b => .lit (a + b)
  | a, b => .add a b

/-- Conversion of an Expression to a concrete usize; fails when a
run-time symbol remains (spec, section 4.1: an Expression with no
remaining symbols converts to a concrete integer, otherwise conversion
fails). -/
def Expression.to_usize : Expression → Option Nat
  | .lit n => some n
  | .sym _ => none
  | .add a b =>
    match a.to_usize, b.to_usize with
    | some x, some y => some (x + y)
    | _, _ => none

/-- Axis classification: build-time Constant(n) or run-time
Dynamic(symbol), as in the spec, section 3. -/
inductive Dimension where
  | const : Nat → Dimension
  | dyn : Char → Dimension
deriving DecidableEq

/-- Modelled from the spec: the Dimension trait method const_size used by
src/src/shape/slice.rs (its defining file is not among the provided
sources); a Constant axis's size is its literal, a Dynamic axis's size is
its symbol as an Expression. -/
def Dimension.const_size : Dimension → Expression
  | .const n => .lit n
  | .dyn c => .sym c

/-- Rust std ops::Bound, as consumed by get_start_bound / get_end_bound. -/
inductive Bound (α : Type) where
  | included : α → Bound α
  | excluded : α → Bound α
  | unbounded : Bound α
deriving DecidableEq

/-- get_start_bound from src/src/shape/slice.rs lines 4-10: inclusive
start is taken as is, an exclusive start X becomes X + 1, an unbounded
start becomes 0. -/
def get_start_bound (bound : Bound Expression) : Expression :=
  match bound with
  | .included x => x
  | .excluded x => x.addE (.lit 1)
  | .unbounded => .lit 0

/-- get_end_bound from src/src/shape/slice.rs lines 12-21: an exclusive
end X stays X, an inclusive end X becomes X + 1, an unbounded end becomes
the supplied size. -/
def get_end_bound (bound : Bound Expression) (size : Expression) : Expression :=
  match bound with
  | .excluded x => x
  | .included x => x.addE (.lit 1)
  | .unbounded => size

/-- dim_to_size from src/src/shape/slice.rs lines 23-25: resolve the
Expression to a usize, falling back to i32::MAX when it does not resolve. -/
def dim_to_size (r : Expression) : Nat :=
  r.to_usize.getD 2147483647

/-- The range forms for which src/src/shape/slice.rs implements
RangeToDim (lines 31-57): RangeFrom x.., RangeTo ..x, RangeToInclusive
..=x, Range x..y, and RangeFull; the crate implements no instance for a
bounded-inclusive RangeInclusive, so that form cannot appear in a slice. -/
inductive RangeSpec where
  | rangeFrom : Expression → RangeSpec
  | rangeTo : Expression → RangeSpec
  | rangeToInclusive : Expression → RangeSpec
  | range : Expression → Expression → RangeSpec
  | full : RangeSpec
deriving DecidableEq

/-- Rust std RangeBounds::start_bound for each supported range form. -/
def RangeSpec.start_bound : RangeSpec → Bound Expression
  | .rangeFrom x => .included x
  | .rangeTo _ => .unbounded
  | .rangeToInclusive _ => .unbounded
  | .range a _ => .included a
  | .full => .unbounded

/-- Rust std RangeBounds::end_bound for each supported range form. -/
def RangeSpec.end_bound : RangeSpec → Bound Expression
  | .rangeFrom _ => .unbounded
  | .rangeTo x => .excluded x
  | .rangeToInclusive x => .included x
  | .range _ b => .excluded b
  | .full => .unbounded

/-- The RangeToDim associated type of src/src/shape/slice.rs lines 27-57:
every implemented non-full range form yields the dynamic dimension
Dyn with marker symbol the dash character, and RangeFull yields the
consulted input dimension unchanged. -/
def rangeToDim (r : RangeSpec) (d : Dimension) : Dimension :=
  match r with
  | .full => d
  | _ => .dyn '-'

/-- One axis entry of a to_range_vec implementation (src/src/shape/slice.rs
lines 71-209): the pair of the translated start bound and the end bound
resolved against dim_to_size of the consulted dimension's const_size. -/
def axisRange (r : RangeSpec) (d : Dimension) : Expression × Expression :=
  (get_start_bound r.start_bound,
   get_end_bound r.end_bound (.lit (dim_to_size d.const_size)))

/-- to_range_vec of the SliceOfShape implementation for rank 1
(src/src/shape/slice.rs lines 71-79). -/
def to_range_vec1 (r1 : RangeSpec) (A : Dimension) :
    List (Expression × Expression) :=
  [axisRange r1 A]

/-- to_range_vec of the SliceOfShape implementation for rank 2
(src/src/shape/slice.rs lines 81-101). -/
def to_range_vec2 (r1 r2 : RangeSpec) (A B : Dimension) :
    List (Expression × Expression) :=
  [axisRange r1 A, axisRange r2 B]

/-- to_range_vec of the SliceOfShape implementation for rank 3
(src/src/shape/slice.rs lines 103-129). -/
def to_range_vec3 (r1 r2 r3 : RangeSpec) (A B C : Dimension) :
    List (Expression × Expression) :=
  [axisRange r1 A, axisRange r2 B, axisRange r3 C]

/-- to_range_vec of the SliceOfShape implementation for rank 4
(src/src/shape/slice.rs lines 143-162): the value-level bounds are
resolved against A, B, C and D in order. -/
def to_range_vec4 (r1 r2 r3 r4 : RangeSpec) (A B C D : Dimension) :
    List (Expression × Expression) :=
  [axisRange r1 A, axisRange r2 B, axisRange r3 C, axisRange r4 D]

/-- to_range_vec of the SliceOfShape implementation for rank 5
(src/src/shape/slice.rs lines 185-208): the value-level bounds are
resolved against A, B, C, D and E in order. -/
def to_range_vec5 (r1 r2 r3 r4 r5 : RangeSpec) (A B C D E : Dimension) :
    List (Expression × Expression) :=
  [axisRange r1 A, axisRange r2 B, axisRange r3 C, axisRange r4 D,
   axisRange r5 E]

/-- OutputShape of the rank-1 SliceOfShape implementation
(src/src/shape/slice.rs line 72): the range is constrained against axis A. -/
def outputShape1 (r1 : RangeSpec) (A : Dimension) : List Dimension :=
  [rangeToDim r1 A]

/-- OutputShape of the rank-2 SliceOfShape implementation
(src/src/shape/slice.rs line 88). -/
def outputShape2 (r1 r2 : RangeSpec) (A B : Dimension) : List Dimension :=
  [rangeToDim r1 A, rangeToDim r2 B]

/-- OutputShape of the rank-3 SliceOfShape implementation
(src/src/shape/slice.rs line 112). -/
def outputShape3 (r1 r2 r3 : RangeSpec) (A B C : Dimension) : List Dimension :=
  [rangeToDim r1 A, rangeToDim r2 B, rangeToDim r3 C]

/-- OutputShape of the rank-4 SliceOfShape implementation
(src/src/shape/slice.rs lines 131-142): the trait bounds declare
R4 : RangeToDim of C, not of D, so the fourth output dimension is the
fourth range constrained against axis C. -/
def outputShape4 (r1 r2 r3 r4 : RangeSpec) (A B C _D : Dimension) :
    List Dimension :=
  [rangeToDim r1 A, rangeToDim r2 B, rangeToDim r3 C, rangeToDim r4 C]

/-- OutputShape of the rank-5 SliceOfShape implementation
(src/src/shape/slice.rs lines 165-184): the trait bounds declare both
R4 : RangeToDim of C and R5 : RangeToDim of C, so the fourth and fifth
output dimensions are both constrained against axis C. -/
def outputShape5 (r1 r2 r3 r4 r5 : RangeSpec) (A B C _D _E : Dimension) :
    List Dimension :=
  [rangeToDim r1 A, rangeToDim r2 B, rangeToDim r3 C, rangeToDim r4 C,
   rangeToDim r5 C]

/-- The end Expression produced for an unbounded end bound on an axis with
the given Dimension, exactly as every to_range_vec implementation computes
it (get_end_bound applied to dim_to_size of const_size). -/
def resolved_unbounded_end (d : Dimension) : Expression :=
  get_end_bound Bound.unbounded (.lit (dim_to_size d.const_size))

/-- Modelled from the spec: ShapeTracker per-axis slice composition
(spec, section 4.3); the ShapeTracker implementation file is not among
the provided sources.  The tracker's current half-open range is
intersected with a newly resolved range interpreted inside the current
view: the new start is offset by the current start, and the new end is
offset likewise and clamped to the current end. -/
def sliceAxisRange (cur new : Nat × Nat) : Nat × Nat :=
  (cur.1 + new.1, min cur.2 (cur.1 + new.2))

/-- A graph node: id, input ids (spec, section 3; the Graph
implementation file is not among the provided sources). -/
structure Node where
  id : Nat
  inputs : List Nat
deriving DecidableEq

/-- Modelled from the spec: the owning Graph's append-only node list
(spec, sections 3 and 4.4); the Graph implementation file is not among
the provided sources. -/
structure Graph where
  nodes : List Node
deriving DecidableEq

/-- Build-time error raised by an internally inconsistent slice
specification (spec, section 7). -/
inductive SliceError where
  | invalidRange
deriving DecidableEq

/-- Modelled from the spec: the Graph slice operation (spec, sections 4.3
and 7); the Graph implementation file is not among the provided sources.
The composed per-axis ranges are validated (start at most end) before any
node is inserted; a violated range aborts with InvalidRange and the node
list is returned unchanged. -/
def sliceOp (g : Graph) (input : Nat) (ranges : List (Nat × Nat)) :
    Graph × Option SliceError :=
  if ranges.all (fun r => r.1 ≤ r.2) then
    (⟨g.nodes ++ [⟨g.nodes.length, [input]⟩]⟩, none)
  else
    (g, some SliceError.invalidRange)

/-- Scalar f32 values materialized by the two Function payloads: the
integer-valued casts i as f32 and the negative-infinity mask entry
(both payloads only ever produce exact small-integer or negative-infinity
values, so the embedding carries them exactly). -/
inductive F32 where
  | val : Nat → F32
  | negInf : F32
deriving DecidableEq

/-- TensorView returned by a Function payload
(src/examples/llama/model.rs): the assigned tensor id together with its
ShapeTracker, modelled by the per-axis shape vector; the payloads only
use ShapeTracker::new(sizes) and .shape() retrieval, and the ShapeTracker
implementation file is not among the provided sources. -/
structure TensorView where
  tensor_id : Nat
  shape : List Nat
deriving DecidableEq

/-- Default resolved input standing in for the out-of-bounds behaviour of
indexing inp[0] on an empty input list (a panic in the original); the
settled claims only concern non-empty input lists. -/
def defaultInput : Nat × TensorView := (0, ⟨0, []⟩)

/-- ARange Function payload from src/examples/llama/model.rs lines
100-114: reads N, the first axis length of the first resolved input's
view, materializes the sequence 0, 1, ..., N-1 (each index cast to f32)
and declares a rank-1 view of length N for the assigned id. -/
def aRangePayload (inp : List (Nat × TensorView)) (i : Nat) :
    Option (List F32) × TensorView :=
  let n := (inp.headD defaultInput).2.shape.headD 0
  (some ((List.range n).map F32.val), ⟨i, [n]⟩)

/-- Inner loop of the AttentionMask payload
(src/examples/llama/model.rs lines 437-441): for j from i + 1 up to
seq_len - 1, write negative infinity at row-major index i * seq_len + j. -/
def maskRow (s i : Nat) (d : List F32) : List F32 :=
  (List.range' (i + 1) (s - (i + 1))).foldl
    (fun d j => d.set (i * s + j) F32.negInf) d

/-- Materialized data of the AttentionMask payload
(src/examples/llama/model.rs lines 436-441): a zero vector of length
seq_len * seq_len with negative infinity written strictly above the
diagonal, row by row. -/
def attentionMaskData (s : Nat) : List F32 :=
  (List.range s).foldl (fun d i => maskRow s i d)
    (List.replicate (s * s) (F32.val 0))

/-- AttentionMask Function payload from src/examples/llama/model.rs lines
434-454: reads seq_len, the second axis length of the first resolved
input's view, materializes the seq_len * seq_len row-major causal mask
and declares a seq_len-by-seq_len view for the assigned id. -/
def attentionMaskPayload (inp : List (Nat × TensorView)) (i : Nat) :
    Option (List F32) × TensorView :=
  let seq_len := (inp.headD defaultInput).2.shape.getD 1 0
  (some (attentionMaskData seq_len), ⟨i, [seq_len, seq_len]⟩)

/-- Addition of a usize offset (cast to f32) onto an f32 scalar, as the
expression adding offset as f32 in get_sincos does elementwise. -/
def F32.addNat : F32 → Nat → F32
  | .val n, m => .val (n + m)
  | .negInf, _ => .negInf

/-- Modelled from the spec: elementwise addition of a scalar constant to a
materialized tensor (the addition node built in get_sincos,
src/examples/llama/model.rs line 121); the numeric execution backend is
outside the provided sources, and the spec's only constraint is that
elementwise ops act pointwise. -/
def addScalarData (d : List F32) (offset : Nat) : List F32 :=
  d.map (fun x => x.addNat offset)

/-- Materialized data of the tensor t of get_sincos
(src/examples/llama/model.rs lines 95-121): the ARange payload's output
shifted elementwise by the caller-supplied offset. -/
def get_sincos_t_data (inp : List (Nat × TensorView)) (offset : Nat) :
    List F32 :=
  addScalarData ((aRangePayload inp 0).1.getD []) offset

end Luminal

namespace Luminal

/-- Length is preserved by a run of negative-infinity writes. -/
theorem foldl_set_length (b n : Nat) :
    ∀ (a : Nat) (d : List F32),
      ((List.range' a n).foldl (fun d j => d.set (b + j) F32.negInf) d).length
        = d.length := by
  induction n with
  | zero => intro a d; rfl
  | succ n ih =>
    intro a d
    rw [List.range'_succ, List.foldl_cons, ih]
    exact List.length_set ..

/-- A run of negative-infinity writes at offsets b + a, ..., b + a + n - 1
leaves every other index unchanged. -/
theorem foldl_set_getElem_far (b n : Nat) :
    ∀ (a k : Nat) (d : List F32), (∀ j, a ≤ j → j < a + n → b + j ≠ k) →
      ((List.range' a n).foldl (fun d j => d.set (b + j) F32.negInf) d)[k]?
        = d[k]? := by
  induction n with
  | zero => intro a k d _; rfl
  | succ n ih =>
    intro a k d h
    rw [List.range'_succ, List.foldl_cons,
      ih (a + 1) k _ (fun j hj1 hj2 => h j (by omega) (by omega))]
    exact List.getElem?_set_ne (h a (Nat.le_refl a) (by omega))

/-- A run of negative-infinity writes at offsets b + a, ..., b + a + n - 1
sets every in-bounds index it covers to negative infinity. -/
theorem foldl_set_getElem_mem (b n : Nat) :
    ∀ (a j : Nat) (d : List F32), a ≤ j → j < a + n → b + j < d.length →
      ((List.range' a n).foldl (fun d j => d.set (b + j) F32.negInf) d)[b + j]?
        = some F32.negInf := by
  induction n with
  | zero => intro a j d h1 h2 _; omega
  | succ n ih =>
    intro a j d h1 h2 h3
    rw [List.range'_succ, List.foldl_cons]
    rcases Nat.eq_or_lt_of_le h1 with heq | hlt
    · subst heq
      rw [foldl_set_getElem_far b n (a + 1) (b + a) _
        (fun j2 hj1 _ => by omega)]
      exact List.getElem?_set_self h3
    · exact ih (a + 1) j _ (by omega) (by omega)
        (by rw [List.length_set]; exact h3)

/-- A negative-infinity entry survives any further run of
negative-infinity writes. -/
theorem foldl_set_preserve (b n : Nat) :
    ∀ (a k : Nat) (d : List F32), d[k]? = some F32.negInf →
      ((List.range' a n).foldl (fun d j => d.set (b + j) F32.negInf) d)[k]?
        = some F32.negInf := by
  induction n with
  | zero => intro a k d h; exact h
  | succ n ih =>
    intro a k d h
    rw [List.range'_succ, List.foldl_cons]
    apply ih
    by_cases hba : b + a = k
    · subst hba
      obtain ⟨hlt, _⟩ := List.getElem?_eq_some.mp h
      exact List.getElem?_set_self hlt
    · rw [List.getElem?_set_ne hba]
      exact h

/-- Folding mask rows preserves a negative-infinity entry. -/
theorem maskFold_preserve (s : Nat) :
    ∀ (rows : List Nat) (d : List F32) (k : Nat), d[k]? = some F32.negInf →
      (rows.foldl (fun d i => maskRow s i d) d)[k]? = some F32.negInf := by
  intro rows
  induction rows with
  | nil => intro d k h; exact h
  | cons i rest ih =>
    intro d k h
    rw [List.foldl_cons]
    apply ih
    simp only [maskRow]
    exact foldl_set_preserve (i * s) (s - (i + 1)) (i + 1) k d h

/-- Folding mask rows leaves every cell untouched by any row unchanged. -/
theorem maskFold_far (s : Nat) :
    ∀ (rows : List Nat) (d : List F32) (k : Nat),
      (∀ i ∈ rows, ∀ j, i + 1 ≤ j → j < s → i * s + j ≠ k) →
      (rows.foldl (fun d i => maskRow s i d) d)[k]? = d[k]? := by
  intro rows
  induction rows with
  | nil => intro d k _; rfl
  | cons i rest ih =>
    intro d k h
    rw [List.foldl_cons,
      ih _ _ (fun i2 hi2 => h i2 (List.mem_cons_of_mem _ hi2))]
    simp only [maskRow]
    apply foldl_set_getElem_far
    intro j hj1 hj2
    exact h i (List.mem_cons_self _ _) j hj1 (by omega)

/-- Folding mask rows writes negative infinity at every strictly
upper-triangular cell of a listed row. -/
theorem maskFold_mem (s : Nat) :
    ∀ (rows : List Nat) (d : List F32) (r c : Nat), r ∈ rows →
      r + 1 ≤ c → c < s → r * s + c < d.length →
      (rows.foldl (fun d i => maskRow s i d) d)[r * s + c]?
        = some F32.negInf := by
  intro rows
  induction rows with
  | nil => intro d r c hmem; exact absurd hmem (List.not_mem_nil r)
  | cons i rest ih =>
    intro d r c hmem hc1 hc2 hlen
    rw [List.foldl_cons]
    rcases List.mem_cons.mp hmem with heq | hmem2
    · subst heq
      apply maskFold_preserve
      simp only [maskRow]
      exact foldl_set_getElem_mem (r * s) (s - (r + 1)) (r + 1) c d hc1
        (by omega) hlen
    · apply ih _ _ _ hmem2 hc1 hc2
      simp only [maskRow]
      rw [foldl_set_length]
      exact hlen

/-- Row-major cell decomposition is unique when both column indices are in
range. -/
theorem cell_index_inj (s i r j c : Nat) (hj : j < s) (hc : c < s)
    (h : i * s + j = r * s + c) : i = r ∧ j = c := by
  have hi : i = r := by
    rcases Nat.lt_trichotomy i r with h1 | h1 | h1
    · exfalso
      have h2 : (i + 1) * s ≤ r * s := Nat.mul_le_mul_right s h1
      have h3 : (i + 1) * s = i * s + s := Nat.succ_mul i s
      omega
    · exact h1
    · exfalso
      have h2 : (r + 1) * s ≤ i * s := Nat.mul_le_mul_right s h1
      have h3 : (r + 1) * s = r * s + s := Nat.succ_mul r s
      omega
  refine ⟨hi, ?_⟩
  subst hi
  omega

/-- Entry characterization of the AttentionMask data: cell (r, c) holds
negative infinity exactly when c is strictly right of the diagonal. -/
theorem attentionMaskData_getElem (s r c : Nat) (hr : r < s) (hc : c < s) :
    (attentionMaskData s)[r * s + c]?
      = some (if r < c then F32.negInf else F32.val 0) := by
  have hsucc : (r + 1) * s = r * s + s := Nat.succ_mul r s
  have hle : (r + 1) * s ≤ s * s := Nat.mul_le_mul_right s hr
  have hk : r * s + c < s * s := by omega
  by_cases hrc : r < c
  · rw [if_pos hrc]
    simp only [attentionMaskData]
    exact maskFold_mem s (List.range s) _ r c (List.mem_range.mpr hr)
      (by omega) hc (by rw [List.length_replicate]; exact hk)
  · rw [if_neg hrc]
    simp only [attentionMaskData]
    have hfar : ∀ i ∈ List.range s, ∀ j, i + 1 ≤ j → j < s →
        i * s + j ≠ r * s + c := by
      intro i _ j hj1 hj2 heq
      obtain ⟨hir, hjc⟩ := cell_index_inj s i r j c hj2 hc heq
      omega
    rw [maskFold_far s (List.range s) _ _ hfar, List.getElem?_replicate,
      if_pos hk]

end Luminal

namespace Luminal

/-- C1: every slice specification that is not the full range - from-X,
to-X, to-X-inclusive, and bounded-exclusive, the non-full forms for which
the crate implements RangeToDim, including those whose bounds are
build-time constant literals - classifies the output axis as Dynamic,
whatever the input axis's Dimension is. -/
theorem nonfull_slice_always_dynamic (r : RangeSpec) (d : Dimension)
    (h : r ≠ RangeSpec.full) : rangeToDim r d = Dimension.dyn '-' := by
  cases r with
  | full => exact absurd rfl h
  | rangeFrom x => rfl
  | rangeTo x => rfl
  | rangeToInclusive x => rfl
  | range a b => rfl

/-- Witness for C1 at the concrete constant-bound slice 2..5 of a
Constant(10) axis. -/
theorem nonfull_slice_always_dynamic_witness :
    RangeSpec.range (.lit 2) (.lit 5) ≠ RangeSpec.full ∧
      rangeToDim (RangeSpec.range (.lit 2) (.lit 5)) (Dimension.const 10) =
        Dimension.dyn '-' :=
  ⟨by decide, nonfull_slice_always_dynamic _ _ (by decide)⟩

/-- C2 (code bug): the per-axis RangeFull rule does preserve the consulted
Dimension, but a full-range slice of a rank-4 shape does not return an
identical shape, because the rank-4 implementation constrains the fourth
range against axis C: on input shape (7, 8, 9, 10) the full slice yields
(7, 8, 9, 9). -/
theorem slice4_full_range_not_identity :
    (∀ d : Dimension, rangeToDim RangeSpec.full d = d) ∧
      outputShape4 RangeSpec.full RangeSpec.full RangeSpec.full RangeSpec.full
          (Dimension.const 7) (Dimension.const 8) (Dimension.const 9)
          (Dimension.const 10) =
        [Dimension.const 7, Dimension.const 8, Dimension.const 9,
          Dimension.const 9] ∧
      outputShape4 RangeSpec.full RangeSpec.full RangeSpec.full RangeSpec.full
          (Dimension.const 7) (Dimension.const 8) (Dimension.const 9)
          (Dimension.const 10) ≠
        [Dimension.const 7, Dimension.const 8, Dimension.const 9,
          Dimension.const 10] :=
  ⟨fun _ => rfl, by decide, by decide⟩

/-- C3 (code bug): in the rank-5 implementation the value-level bounds are
resolved against the correct axes A..E (a full slice of shape
(1, 2, 3, 4, 5) yields the ranges [0,1) [0,2) [0,3) [0,4) [0,5)), but the
type-level output dimensions at positions 4 and 5 are constrained against
axis C, yielding (1, 2, 3, 3, 3) instead of (1, 2, 3, 4, 5). -/
theorem slice5_position_mapping_eval :
    to_range_vec5 RangeSpec.full RangeSpec.full RangeSpec.full RangeSpec.full
        RangeSpec.full (Dimension.const 1) (Dimension.const 2)
        (Dimension.const 3) (Dimension.const 4) (Dimension.const 5) =
      [(.lit 0, .lit 1), (.lit 0, .lit 2), (.lit 0, .lit 3), (.lit 0, .lit 4),
        (.lit 0, .lit 5)] ∧
    outputShape5 RangeSpec.full RangeSpec.full RangeSpec.full RangeSpec.full
        RangeSpec.full (Dimension.const 1) (Dimension.const 2)
        (Dimension.const 3) (Dimension.const 4) (Dimension.const 5) =
      [Dimension.const 1, Dimension.const 2, Dimension.const 3,
        Dimension.const 3, Dimension.const 3] :=
  ⟨by decide, by decide⟩

/-- C4: bound translation is canonical half-open.  Inclusive start X gives
X, exclusive start X gives X + 1, unbounded start gives 0; exclusive end X
gives X, inclusive end X gives X + 1, unbounded end on a Constant(N) axis
gives N.  Concretely with N = 10: 2..5 gives [2,5), the inclusive bound
pair of 2..=5 gives [2,6), 3.. gives [3,10), ..4 gives [0,4), and the full
range gives [0,10). -/
theorem bound_translation_canonical :
    (∀ x : Expression, get_start_bound (Bound.included x) = x) ∧
    (∀ n : Nat,
      get_start_bound (Bound.excluded (.lit n)) = Expression.lit (n + 1)) ∧
    (get_start_bound Bound.unbounded = Expression.lit 0) ∧
    (∀ (x s : Expression), get_end_bound (Bound.excluded x) s = x) ∧
    (∀ (n : Nat) (s : Expression),
      get_end_bound (Bound.included (.lit n)) s = Expression.lit (n + 1)) ∧
    (∀ N : Nat,
      get_end_bound Bound.unbounded
        (.lit (dim_to_size (Dimension.const N).const_size)) =
          Expression.lit N) ∧
    axisRange (RangeSpec.range (.lit 2) (.lit 5)) (Dimension.const 10) =
      (Expression.lit 2, Expression.lit 5) ∧
    (get_start_bound (Bound.included (.lit 2)),
      get_end_bound (Bound.included (.lit 5))
        (.lit (dim_to_size (Dimension.const 10).const_size))) =
      (Expression.lit 2, Expression.lit 6) ∧
    axisRange (RangeSpec.rangeFrom (.lit 3)) (Dimension.const 10) =
      (Expression.lit 3, Expression.lit 10) ∧
    axisRange (RangeSpec.rangeTo (.lit 4)) (Dimension.const 10) =
      (Expression.lit 0, Expression.lit 4) ∧
    axisRange RangeSpec.full (Dimension.const 10) =
      (Expression.lit 0, Expression.lit 10) :=
  ⟨fun _ => rfl, fun _ => rfl, rfl, fun _ _ => rfl, fun _ _ => rfl,
    fun _ => rfl, rfl, rfl, rfl, rfl, rfl⟩

/-- C5 counterexample: on the Dynamic axis with symbol a, an unbounded end
does not resolve to the axis's symbolic full-size Expression; it resolves
to the literal sentinel i32::MAX = 2147483647. -/
theorem dynamic_unbounded_end_not_symbolic :
    resolved_unbounded_end (Dimension.dyn 'a') =
        Expression.lit 2147483647 ∧
      resolved_unbounded_end (Dimension.dyn 'a') ≠ Expression.sym 'a' :=
  ⟨rfl, by decide⟩

/-- C5 amended: an unbounded end resolves to the axis's concrete size only
when the size Expression resolves to a concrete integer (a Constant axis);
on every Dynamic axis the size Expression still contains a symbol, so
conversion fails and the sentinel i32::MAX = 2147483647 is used instead. -/
theorem dynamic_unbounded_end_sentinel :
    (∀ c : Char,
      resolved_unbounded_end (Dimension.dyn c) = Expression.lit 2147483647) ∧
    (∀ n : Nat, resolved_unbounded_end (Dimension.const n) = Expression.lit n) :=
  ⟨fun _ => rfl, fun _ => rfl⟩

/-- C6: nested slicing composes against the current view: on an axis of
size at least 8, slicing to [2,8) and then slicing the result to [1,4)
yields the same final range as a single slice to [3,6) of the original
axis. -/
theorem nested_slice_composes (N : Nat) (_h : 8 ≤ N) :
    sliceAxisRange (sliceAxisRange (0, N) (2, 8)) (1, 4) =
      sliceAxisRange (0, N) (3, 6) := by
  simp [sliceAxisRange, Prod.ext_iff]

/-- Witness for C6 at the smallest admissible axis size N = 8. -/
theorem nested_slice_composes_witness :
    8 ≤ 8 ∧
      sliceAxisRange (sliceAxisRange (0, 8) (2, 8)) (1, 4) =
        sliceAxisRange (0, 8) (3, 6) :=
  ⟨by decide, nested_slice_composes 8 (by decide)⟩

/-- C7: a slice whose composed range has start greater than end fails with
InvalidRange and the owning Graph's node list is exactly what it was
before the call. -/
theorem invalid_range_leaves_graph_unchanged (g : Graph) (input s e : Nat)
    (h : e < s) :
    sliceOp g input [(s, e)] = (g, some SliceError.invalidRange) := by
  simp only [sliceOp, List.all_cons, List.all_nil, Bool.and_true]
  rw [if_neg]
  simp only [decide_eq_true_eq]
  omega

/-- Witness for C7: the range (6, 3) on an empty graph. -/
theorem invalid_range_leaves_graph_unchanged_witness :
    3 < 6 ∧
      sliceOp ⟨[]⟩ 0 [(6, 3)] = (⟨[]⟩, some SliceError.invalidRange) :=
  ⟨by decide, invalid_range_leaves_graph_unchanged ⟨[]⟩ 0 6 3 (by decide)⟩

/-- C8: both Function-node payloads (ARange and AttentionMask) are
deterministic: two invocations on identical resolved input lists and the
same assigned output id return identical output data and identical
TensorViews.  Each payload closure captures no mutable state, so it embeds
as a pure function. -/
theorem function_payloads_deterministic (inp inp2 : List (Nat × TensorView))
    (i : Nat) (h : inp = inp2) :
    aRangePayload inp i = aRangePayload inp2 i ∧
      attentionMaskPayload inp i = attentionMaskPayload inp2 i := by
  subst h
  exact ⟨rfl, rfl⟩

/-- Witness for C8 at a concrete resolved input list and output id 4. -/
theorem function_payloads_deterministic_witness :
    [((1 : Nat), TensorView.mk 2 [3, 3])] = [((1 : Nat), TensorView.mk 2 [3, 3])] ∧
      aRangePayload [(1, TensorView.mk 2 [3, 3])] 4 =
        aRangePayload [(1, TensorView.mk 2 [3, 3])] 4 ∧
      attentionMaskPayload [(1, TensorView.mk 2 [3, 3])] 4 =
        attentionMaskPayload [(1, TensorView.mk 2 [3, 3])] 4 :=
  ⟨rfl, (function_payloads_deterministic _ _ 4 rfl).1,
    (function_payloads_deterministic [(1, TensorView.mk 2 [3, 3])] _ 4 rfl).2⟩

/-- C9: on a resolved input whose first view has first-axis length N, the
ARange payload returns exactly the data 0, 1, ..., N-1 (as f32 values) and
a rank-1 TensorView of length N for the assigned id, and the tensor t of
get_sincos holds that sequence shifted by the caller-supplied offset. -/
theorem arange_payload_correct (inp : List (Nat × TensorView))
    (p : Nat × TensorView) (i N offset : Nat)
    (h1 : inp.head? = some p) (h2 : p.2.shape.head? = some N) :
    aRangePayload inp i =
        (some ((List.range N).map F32.val), ⟨i, [N]⟩) ∧
      (aRangePayload inp i).2.shape.length = 1 ∧
      get_sincos_t_data inp offset =
        (List.range N).map (fun j => F32.val (j + offset)) := by
  cases inp with
  | nil => simp at h1
  | cons q rest =>
    simp only [List.head?_cons, Option.some.injEq] at h1
    subst h1
    cases hsq : q.2.shape with
    | nil => rw [hsq] at h2; simp at h2
    | cons m ms =>
      rw [hsq] at h2
      simp only [List.head?_cons, Option.some.injEq] at h2
      subst h2
      refine ⟨?_, ?_, ?_⟩
      · simp [aRangePayload, hsq]
      · simp [aRangePayload, hsq]
      · simp only [get_sincos_t_data, addScalarData, aRangePayload, hsq,
          List.headD_cons, Option.getD_some, List.map_map]
        exact List.map_congr_left (fun j _ => rfl)

/-- Witness for C9: one resolved input of view shape (4, 9), assigned
output id 7 and offset 2. -/
theorem arange_payload_correct_witness :
    [((5 : Nat), TensorView.mk 3 [4, 9])].head? =
        some ((5 : Nat), TensorView.mk 3 [4, 9]) ∧
      ((5 : Nat), TensorView.mk 3 [4, 9]).2.shape.head? = some 4 ∧
      aRangePayload [(5, TensorView.mk 3 [4, 9])] 7 =
        (some [F32.val 0, F32.val 1, F32.val 2, F32.val 3],
          TensorView.mk 7 [4]) ∧
      get_sincos_t_data [(5, TensorView.mk 3 [4, 9])] 2 =
        [F32.val 2, F32.val 3, F32.val 4, F32.val 5] := by
  refine ⟨rfl, rfl, ?_, ?_⟩
  · exact (arange_payload_correct [(5, TensorView.mk 3 [4, 9])] _ 7 4 2
      rfl rfl).1.trans (by decide)
  · exact (arange_payload_correct [(5, TensorView.mk 3 [4, 9])] _ 7 4 2
      rfl rfl).2.2.trans (by decide)

/-- C10: on a resolved input whose first view has second-axis length S,
the AttentionMask payload returns the S-by-S row-major matrix whose entry
at row r, column c is negative infinity exactly when c is greater than r
and zero otherwise, together with a TensorView of shape S-by-S. -/
theorem attention_mask_payload_correct (inp : List (Nat × TensorView))
    (p : Nat × TensorView) (i S : Nat)
    (h1 : inp.head? = some p) (h2 : p.2.shape[1]? = some S) :
    attentionMaskPayload inp i =
        (some (attentionMaskData S), ⟨i, [S, S]⟩) ∧
      ∀ r c : Nat, r < S → c < S →
        (attentionMaskData S)[r * S + c]?
          = some (if r < c then F32.negInf else F32.val 0) := by
  constructor
  · cases inp with
    | nil => simp at h1
    | cons q rest =>
      simp only [List.head?_cons, Option.some.injEq] at h1
      subst h1
      simp [attentionMaskPayload, List.getD_eq_getElem?_getD, h2]
  · intro r c hr hc
    exact attentionMaskData_getElem S r c hr hc

/-- Witness for C10: one resolved input of view shape (7, 3), assigned
output id 9, probing the mask cells (1, 2) and (2, 1). -/
theorem attention_mask_payload_correct_witness :
    [((1 : Nat), TensorView.mk 2 [7, 3])].head? =
        some ((1 : Nat), TensorView.mk 2 [7, 3]) ∧
      ((1 : Nat), TensorView.mk 2 [7, 3]).2.shape[1]? = some 3 ∧
      attentionMaskPayload [(1, TensorView.mk 2 [7, 3])] 9 =
        (some (attentionMaskData 3), TensorView.mk 9 [3, 3]) ∧
      (attentionMaskData 3)[1 * 3 + 2]? = some F32.negInf ∧
      (attentionMaskData 3)[2 * 3 + 1]? = some (F32.val 0) := by
  refine ⟨rfl, rfl,
    (attention_mask_payload_correct [(1, TensorView.mk 2 [7, 3])] _ 9 3
      rfl rfl).1, ?_, ?_⟩
  · have h := (attention_mask_payload_correct [(1, TensorView.mk 2 [7, 3])] _
      9 3 rfl rfl).2 1 2 (by decide) (by decide)
    simpa using h
  · have h := (attention_mask_payload_correct [(1, TensorView.mk 2 [7, 3])] _
      9 3 rfl rfl).2 2 1 (by decide) (by decide)
    simpa using h

end Luminal
